import Mathlib

/-!
Shallow embedding of the Canon printer discovery engine
(`printer_discovery.py` and the classifier copy in `platform_utils.py`).

Strings are Lean `String`s; Python's per-character ASCII case folding is
modelled with `Char.toLower`/`Char.toUpper`; network and HTTP effects are
passed in as explicit oracles (`portOpen`, `fetch`, `route`, `online`).
-/

namespace CanonDiscovery

/-- Boolean test: `pre` is a leading segment of `cs`. -/
def startsWithB : List Char → List Char → Bool
  | [], _ => true
  | _ :: _, [] => false
  | a :: as, b :: bs => a == b && startsWithB as bs

/-- Boolean substring containment, models Python `needle in haystack`. -/
def containsSub (needle : List Char) : List Char → Bool
  | [] => startsWithB needle []
  | c :: cs => startsWithB needle (c :: cs) || containsSub needle cs

/-- Models Python `needle in haystack` on strings. -/
def strIn (needle haystack : String) : Bool :=
  containsSub needle.data haystack.data

/-- Models Python `s.lower()` (ASCII). -/
def lowerStr (s : String) : String :=
  String.mk (s.data.map Char.toLower)

/-- Models Python `s.upper()` (ASCII). -/
def upperStr (s : String) : String :=
  String.mk (s.data.map Char.toUpper)

/-- The fixed vendor keyword list `self.canon_keywords`. -/
def canon_keywords : List String :=
  ["canon", "pixma", "imageclass", "maxify", "selphy",
   "imagerunner", "ij", "mb", "mx", "mp", "mg", "mf"]

/-- `CanonPrinterDiscovery._is_canon_printer`: the lower-cased name
contains some vendor keyword. -/
def is_canon_printer (name : String) : Bool :=
  canon_keywords.any (fun kw => strIn kw (lowerStr name))

/-- The identical keyword list in `platform_utils.PlatformUtils._is_canon_printer`. -/
def platform_canon_keywords : List String :=
  ["canon", "pixma", "imageclass", "maxify", "selphy",
   "imagerunner", "ij", "mb", "mx", "mp", "mg", "mf"]

/-- `PlatformUtils._is_canon_printer`, the textual copy of the classifier. -/
def platform_is_canon_printer (name : String) : Bool :=
  platform_canon_keywords.any (fun kw => strIn kw (lowerStr name))

/-- Python regex `\s` on the characters our model handles. -/
def isSpaceCh (c : Char) : Bool :=
  c == ' ' || c == '\t' || c == '\n' || c == '\r' ||
  c == Char.ofNat 11 || c == Char.ofNat 12

/-- Regex class `[A-Z]`. -/
def isUpperAlpha (c : Char) : Bool := 'A' ≤ c && c ≤ 'Z'

/-- Regex class `\d` (ASCII digits). -/
def isDigitCh (c : Char) : Bool := '0' ≤ c && c ≤ '9'

/-- The shapes of the model regexes in `_extract_model`:
`word lit` is `LIT\s+([A-Z]+\d+)`, `series lit` is `(LIT\d+[A-Z]*)`. -/
inductive ModelPat where
  | word (lit : List Char)
  | series (lit : List Char)

/-- Anchored match of one model pattern at the head of `cs`; returns the
whole matched span (`match.group(0)`).  The character classes of these
patterns are pairwise disjoint, so greedy maximal munch is exact. -/
def matchPatAt : ModelPat → List Char → Option (List Char)
  | .word lit, cs =>
    if startsWithB lit cs then
      let r1 := cs.drop lit.length
      let ws := r1.takeWhile isSpaceCh
      if ws.isEmpty then none else
      let r2 := r1.drop ws.length
      let ls := r2.takeWhile isUpperAlpha
      if ls.isEmpty then none else
      let r3 := r2.drop ls.length
      let ds := r3.takeWhile isDigitCh
      if ds.isEmpty then none else some (lit ++ ws ++ ls ++ ds)
    else none
  | .series lit, cs =>
    if startsWithB lit cs then
      let r1 := cs.drop lit.length
      let ds := r1.takeWhile isDigitCh
      if ds.isEmpty then none else
      let ls := (r1.drop ds.length).takeWhile isUpperAlpha
      some (lit ++ ds ++ ls)
    else none

/-- Leftmost unanchored search of one pattern, models `re.search`. -/
def searchPat (p : ModelPat) : List Char → Option (List Char)
  | [] => matchPatAt p []
  | c :: cs =>
    match matchPatAt p (c :: cs) with
    | some r => some r
    | none => searchPat p cs

/-- The ordered pattern table of `_extract_model`. -/
def model_patterns : List ModelPat :=
  [.word "PIXMA".data, .series "MX".data, .series "MP".data,
   .series "MG".data, .series "MF".data, .series "MB".data,
   .word "IMAGECLASS".data, .word "IMAGERUNNER".data]

/-- First pattern of the table that matches anywhere in `cs` wins. -/
def firstPatMatch : List ModelPat → List Char → Option (List Char)
  | [], _ => none
  | p :: ps, cs =>
    match searchPat p cs with
    | some r => some r
    | none => firstPatMatch ps cs

/-- `CanonPrinterDiscovery._extract_model`. -/
def extract_model (name : String) : String :=
  match firstPatMatch model_patterns (upperStr name).data with
  | some g => "Canon " ++ String.mk g
  | none => "Canon Printer"

/-- Case-insensitive version of `startsWithB`, for `re.IGNORECASE` literals. -/
def startsWithCI : List Char → List Char → Bool
  | [], _ => true
  | _ :: _, [] => false
  | a :: as, b :: bs => a.toLower == b.toLower && startsWithCI as bs

/-- Anchored match of `<title>([^<]+)</title>` (ignore-case) at the head of
`cs`; returns the capture group. -/
def matchTitleAt (cs : List Char) : Option (List Char) :=
  if startsWithCI "<title>".data cs then
    let rest := cs.drop 7
    let body := rest.takeWhile (fun c => c != '<')
    if body.isEmpty then none
    else if startsWithCI "</title>".data (rest.drop body.length) then some body
    else none
  else none

/-- Leftmost search for the title regex, models `re.search(r'<title>([^<]+)</title>', ..., re.IGNORECASE)`. -/
def searchTitle : List Char → Option (List Char)
  | [] => matchTitleAt []
  | c :: cs =>
    match matchTitleAt (c :: cs) with
    | some r => some r
    | none => searchTitle cs

/-- The `<title>` capture of a page, when the regex matches. -/
def find_title (s : String) : Option String :=
  (searchTitle s.data).map String.mk

/-- The capability dictionary built by `get_printer_capabilities`. -/
structure Capabilities where
  duplex : Bool
  color : Bool
  max_copies : Nat
  supported_media : List String
  supported_quality : List String
deriving DecidableEq

/-- A discovery result dictionary.  The Python dicts built by the producers
carry exactly the first five keys (manual records also carry `ip`/`port`);
none of them carries a `capabilities` key, modelled by `capabilities = none`. -/
structure Record where
  name : String
  uri : String
  status : String
  model : String
  source : String
  ip : Option String := none
  port : Option Nat := none
  capabilities : Option Capabilities := none
deriving DecidableEq

/-- The dictionary returned by `_get_ipp_printer_info` on success. -/
structure PrinterInfo where
  name : String
  model : String
  status : String
deriving DecidableEq

/-- A `config_manager.printers_cache` value.  Each Python `dict.get` default
is applied at the use site, so absent keys are `none` here;
`manually_added` models `get('manually_added', False)`. -/
structure CacheEntry where
  name : Option String := none
  model : Option String := none
  manually_added : Bool := false
  ip : Option String := none
  port : Option Nat := none
deriving DecidableEq

/-- An HTTP response as seen by `requests.get`: status code and body text. -/
structure HttpResponse where
  status : Nat
  text : String
deriving DecidableEq

/-- The fixed probe port list `self.ipp_ports`. -/
def ipp_ports : List Nat := [631, 9100, 8080, 80]

/-- `CanonPrinterDiscovery._get_ipp_printer_info`, with the outcome of
`requests.get(f"http://{ip}:{port}")` supplied as `resp` (`none` models a
raised exception, absorbed by the bare `except`). -/
def get_ipp_printer_info (ip : String) (resp : Option HttpResponse) :
    Option PrinterInfo :=
  match resp with
  | none => none
  | some r =>
    if r.status == 200 then
      let content := lowerStr r.text
      if canon_keywords.any (fun kw => strIn kw content) then
        let name :=
          match find_title r.text with
          | some t => t
          | none => "Canon Printer at " ++ ip
        some { name := name, model := extract_model name, status := "Available" }
      else none
    else none

/-- Loop body of `_scan_host_for_ipp`: walk `ports` in order; the first open
port whose banner yields a vendor-classified name produces the record and
stops the walk. -/
def scan_ports (ip : String) (portOpen : Nat → Bool)
    (fetch : Nat → Option HttpResponse) : List Nat → Option Record
  | [] => none
  | p :: ps =>
    if portOpen p then
      match get_ipp_printer_info ip (fetch p) with
      | some info =>
        if is_canon_printer info.name then
          some { name := info.name,
                 uri := "ipp://" ++ ip ++ ":" ++ toString p ++ "/ipp/print",
                 status := info.status,
                 model := info.model,
                 source := "network_scan" }
        else scan_ports ip portOpen fetch ps
      | none => scan_ports ip portOpen fetch ps
    else scan_ports ip portOpen fetch ps

/-- `CanonPrinterDiscovery._scan_host_for_ipp` for one host, with the TCP
reachability oracle `portOpen` and the HTTP oracle `fetch`. -/
def scan_host_for_ipp (ip : String) (portOpen : Nat → Bool)
    (fetch : Nat → Option HttpResponse) : Option Record :=
  scan_ports ip portOpen fetch ipp_ports

/-- Whether the scan of `ip` returns (and stops) at port `p`. -/
def scan_hit (ip : String) (portOpen : Nat → Bool)
    (fetch : Nat → Option HttpResponse) (p : Nat) : Bool :=
  portOpen p &&
    (match get_ipp_printer_info ip (fetch p) with
     | some info => is_canon_printer info.name
     | none => false)

/-- The `(ip, port)` pairs on which `_scan_host_for_ipp` actually calls
`_is_port_open` while walking `ports`: every port up to and including the
first hit. -/
def scan_probes (ip : String) (portOpen : Nat → Bool)
    (fetch : Nat → Option HttpResponse) : List Nat → List (String × Nat)
  | [] => []
  | p :: ps =>
    (ip, p) ::
      (if scan_hit ip portOpen fetch p then []
       else scan_probes ip portOpen fetch ps)

/-- One /24 block `a.b.c.0/24`, the only shape `_get_network_ranges` builds. -/
structure NetRange where
  a : Nat
  b : Nat
  c : Nat
deriving DecidableEq

/-- Iterating a `/24` `IPv4Network` yields all 256 addresses in order. -/
def ipsOfRange (nr : NetRange) : List String :=
  (List.range 256).map
    (fun d => toString nr.a ++ "." ++ toString nr.b ++ "." ++
              toString nr.c ++ "." ++ toString d)

/-- The host strings submitted to the pool, one per address, in submission
order (`for network in network_ranges: for ip in network`). -/
def submitted_ips (ranges : List NetRange) : List String :=
  ranges.flatMap ipsOfRange

/-- `CanonPrinterDiscovery._discover_network_printers` given the resolved
ranges: every submitted host is scanned and every non-`None` result is
collected (modelled in submission order). -/
def discover_network_printers (ranges : List NetRange)
    (portOpen : String → Nat → Bool)
    (fetch : String → Nat → Option HttpResponse) : List Record :=
  (submitted_ips ranges).filterMap
    (fun ip => scan_host_for_ipp ip (portOpen ip) (fetch ip))

/-- All `(ip, port)` pairs probed during the sweep. -/
def probed_pairs (ranges : List NetRange)
    (portOpen : String → Nat → Bool)
    (fetch : String → Nat → Option HttpResponse) : List (String × Nat) :=
  (submitted_ips ranges).flatMap
    (fun ip => scan_probes ip (portOpen ip) (fetch ip) ipp_ports)

/-- The full address × port cross-product of a sweep. -/
def full_cross (ranges : List NetRange) : List (String × Nat) :=
  (submitted_ips ranges).flatMap (fun ip => ipp_ports.map (fun p => (ip, p)))

/-- Models Python `s.split(sep)` for a one-character separator, keeping
empty fields. -/
def splitOnCh (sep : Char) : List Char → List (List Char)
  | [] => [[]]
  | c :: cs =>
    if c == sep then [] :: splitOnCh sep cs
    else
      match splitOnCh sep cs with
      | f :: rest => (c :: f) :: rest
      | [] => [[c]]

/-- Models Python `s.strip()` (whitespace at both ends). -/
def trimChars (cs : List Char) : List Char :=
  ((cs.dropWhile isSpaceCh).reverse.dropWhile isSpaceCh).reverse

/-- Models Python `'.'.join(fields)`. -/
def joinDots : List (List Char) → List Char
  | [] => []
  | [f] => f
  | f :: fs => f ++ '.' :: joinDots fs

/-- Numeric value of an ASCII digit. -/
def charVal (c : Char) : Nat := c.toNat - 48

/-- An octet as parsed by `ipaddress`: nonempty ASCII decimal, ≤ 255, no
leading zero. -/
def parseOctet : List Char → Option Nat
  | [] => none
  | c :: cs =>
    if (c :: cs).all isDigitCh then
      if c == '0' && !cs.isEmpty then none
      else
        let n := (c :: cs).foldl (fun acc d => 10 * acc + charVal d) 0
        if n ≤ 255 then some n else none
    else none

/-- `ipaddress.IPv4Network(s, strict=False)` restricted to the `/24` strings
this module constructs: four valid octets, prefix literally `24`; `strict=False`
masks the last octet to `0`. Returns `none` where Python raises. -/
def parseNetwork24 (cs : List Char) : Option NetRange :=
  match splitOnCh '/' cs with
  | [addr, pre] =>
    if pre == "24".data then
      match (splitOnCh '.' addr).mapM parseOctet with
      | some [a, b, c, _] => some { a := a, b := b, c := c }
      | _ => none
    else none
  | _ => none

/-- The `'.'.join(gateway.split('.')[:-1]) + '.0/24'` derivation applied to
a line containing `gateway:`. -/
def gateway_base (line : List Char) : List Char :=
  let gateway := trimChars ((splitOnCh ':' line).getD 1 [])
  joinDots ((splitOnCh '.' gateway).dropLast) ++ ".0/24".data

/-- The static fallback set of `_get_network_ranges`. -/
def default_networks : List NetRange :=
  [{ a := 192, b := 168, c := 1 }, { a := 192, b := 168, c := 0 },
   { a := 10, b := 0, c := 0 }, { a := 172, b := 16, c := 0 }]

/-- `CanonPrinterDiscovery._get_network_ranges`.  `route = none` models
`subprocess.run(['route','-n','get','default'], ...)` raising (command
unavailable); `some (rc, out)` is its exit status and stdout.  The fallback
list is assigned only in the `except` branch, which is reached when the
command raises or when `IPv4Network` rejects the derived base string. -/
def get_network_ranges (route : Option (Nat × String)) : List NetRange :=
  match route with
  | none => default_networks
  | some (rc, out) =>
    if rc == 0 then
      match (splitOnCh '\n' out.data).find?
          (fun l => containsSub "gateway:".data l) with
      | some line =>
        match parseNetwork24 (gateway_base line) with
        | some n => [n]
        | none => default_networks
      | none => []
    else []

/-- `CanonPrinterDiscovery._get_manual_printers`, with the cache items and
the `test_printer_connection` outcome per uri supplied as oracles. -/
def get_manual_printers (cache : List (String × CacheEntry))
    (online : String → Bool) : List Record :=
  cache.filterMap
    (fun e =>
      if e.2.manually_added then
        some { name := e.2.name.getD "Unknown Printer",
               uri := e.1,
               status := if online e.1 then "Available" else "Offline",
               model := e.2.model.getD "Unknown",
               source := "manual_config",
               ip := some (e.2.ip.getD ""),
               port := some (e.2.port.getD 631) }
      else none)

/-- Inner loop of the uri-keyed dict built by `find_canon_printers`:
keep a record only when its uri was not seen before. -/
def dedupGo (seen : List String) : List Record → List Record
  | [] => []
  | r :: rs =>
    if seen.contains r.uri then dedupGo seen rs
    else r :: dedupGo (r.uri :: seen) rs

/-- The dedup step of `find_canon_printers`: Python builds a dict keyed by
`uri`, inserting only unseen uris, and returns its values in insertion
order — the first record per uri, in first-occurrence order. -/
def dedupByUri (rs : List Record) : List Record := dedupGo [] rs

/-- `CanonPrinterDiscovery.find_canon_printers`, with the four producer
contributions supplied as lists: concatenate in the fixed order
manual, system, network scan, mdns, then dedup by uri. -/
def find_canon_printers (manual system network mdns : List Record) :
    List Record :=
  dedupByUri (manual ++ system ++ network ++ mdns)

/-- The descriptor `get_printer_capabilities` always returns. -/
def default_capabilities : Capabilities :=
  { duplex := true, color := true, max_copies := 99,
    supported_media := ["A4", "Letter", "Legal", "4x6", "5x7"],
    supported_quality := ["draft", "normal", "high"] }

/-- `CanonPrinterDiscovery.get_printer_capabilities`: the initial dict is
updated with the fixed Canon defaults; nothing in the `try` block can raise,
so the result never depends on `printer_uri`. -/
def get_printer_capabilities (_printer_uri : String) : Capabilities :=
  let caps : Capabilities :=
    { duplex := false, color := false, max_copies := 99,
      supported_media := [],
      supported_quality := ["draft", "normal", "high"] }
  { caps with duplex := true, color := true,
              supported_media := ["A4", "Letter", "Legal", "4x6", "5x7"] }

/-! Concrete scenario environments used by the spec's examples. -/

/-- Banner served by host 192.168.1.5 in the spec's network-scan scenario. -/
def c1_banner : String :=
  "<html><head><title>Canon PIXMA TS3400</title></head></html>"

/-- Reachability oracle of the scenario: only 192.168.1.5 accepts, on 631. -/
def c1_portOpen (ip : String) (p : Nat) : Bool :=
  ip == "192.168.1.5" && p == 631

/-- HTTP oracle of the scenario: 192.168.1.5 serves the banner on 631. -/
def c1_fetch (ip : String) (p : Nat) : Option HttpResponse :=
  if ip == "192.168.1.5" && p == 631 then some { status := 200, text := c1_banner }
  else none

/-- The record the code actually produces in the scenario. -/
def c1_expected : Record :=
  { name := "Canon PIXMA TS3400",
    uri := "ipp://192.168.1.5:631/ipp/print",
    status := "Available",
    model := "Canon PIXMA TS3400",
    source := "network_scan" }

/-- Manual-cache record for `ipp://10.0.0.9:631/ipp/print`. -/
def c3_manual : Record :=
  { name := "Office Canon", uri := "ipp://10.0.0.9:631/ipp/print",
    status := "Available", model := "Canon MB2720", source := "manual_config",
    ip := some "10.0.0.9", port := some 631 }

/-- Network-scan rediscovery of the same uri under a different name. -/
def c3_net : Record :=
  { name := "Canon MB2720 series", uri := "ipp://10.0.0.9:631/ipp/print",
    status := "Available", model := "Canon MB2720", source := "network_scan" }

/-- A system-enumeration record used to probe the final list's fields. -/
def c6_system_record : Record :=
  { name := "Canon MG2520", uri := "ipp://1.2.3.4:631/ipp/print",
    status := "Available", model := "Canon MG2520", source := "system" }

/-- Reachability oracle where every port of 192.168.1.5 accepts. -/
def c8_portOpen (ip : String) (_p : Nat) : Bool := ip == "192.168.1.5"

/-- HTTP oracle where 192.168.1.5 serves the Canon banner on every port. -/
def c8_fetch (ip : String) (_p : Nat) : Option HttpResponse :=
  if ip == "192.168.1.5" then some { status := 200, text := c1_banner } else none

/-! Helper lemmas about the string and dedup primitives. -/

theorem startsWithB_iff_exists (n : List Char) :
    ∀ h, startsWithB n h = true ↔ ∃ r, h = n ++ r := by
  induction n with
  | nil => intro h; simp [startsWithB]
  | cons a as ih =>
    intro h
    cases h with
    | nil => simp [startsWithB]
    | cons b bs =>
      simp only [startsWithB, Bool.and_eq_true, beq_iff_eq, ih bs,
        List.cons_append, List.cons.injEq]
      constructor
      · rintro ⟨rfl, r, rfl⟩
        exact ⟨r, rfl, rfl⟩
      · rintro ⟨r, rfl, rfl⟩
        exact ⟨rfl, r, rfl⟩

theorem containsSub_iff_exists (n : List Char) :
    ∀ h, containsSub n h = true ↔ ∃ l r, h = l ++ n ++ r := by
  intro h
  induction h with
  | nil =>
    simp only [containsSub, startsWithB_iff_exists]
    constructor
    · rintro ⟨r, hr⟩
      exact ⟨[], r, by simpa using hr⟩
    · rintro ⟨l, r, hlr⟩
      exact ⟨r, by
        rcases List.append_eq_nil.mp hlr.symm with ⟨h1, h2⟩
        rcases List.append_eq_nil.mp h1 with ⟨h3, h4⟩
        simp [h2, h4]⟩
  | cons c cs ih =>
    simp only [containsSub, Bool.or_eq_true, startsWithB_iff_exists, ih]
    constructor
    · rintro (⟨r, hr⟩ | ⟨l, r, hlr⟩)
      · exact ⟨[], r, by simpa using hr⟩
      · exact ⟨c :: l, r, by simp [hlr]⟩
    · rintro ⟨l, r, hlr⟩
      cases l with
      | nil => exact Or.inl ⟨r, by simpa using hlr⟩
      | cons x l' =>
        simp only [List.cons_append, List.cons.injEq] at hlr
        exact Or.inr ⟨l', r, hlr.2⟩

theorem mem_dedupGo_iff {r : Record} :
    ∀ (seen : List String) (rs : List Record),
      r ∈ dedupGo seen rs ↔
        seen.contains r.uri = false ∧
          rs.find? (fun x => x.uri == r.uri) = some r := by
  intro seen rs
  induction rs generalizing seen with
  | nil => simp [dedupGo]
  | cons x xs ih =>
    by_cases hx : seen.contains x.uri
    · rw [show dedupGo seen (x :: xs) = dedupGo seen xs from by
        simp only [dedupGo]; rw [if_pos hx], ih seen]
      by_cases hxr : x.uri = r.uri
      · constructor
        · rintro ⟨h1, _⟩
          rw [← hxr, hx] at h1
          exact absurd h1 (by simp)
        · rintro ⟨h1, _⟩
          rw [← hxr, hx] at h1
          exact absurd h1 (by simp)
      · rw [List.find?_cons_of_neg _ (by simp [hxr])]
    · rw [show dedupGo seen (x :: xs) = x :: dedupGo (x.uri :: seen) xs from by
        simp only [dedupGo]; rw [if_neg hx]]
      simp only [List.mem_cons, ih]
      by_cases hxr : x.uri = r.uri
      · rw [List.find?_cons_of_pos _ (by simp [hxr])]
        constructor
        · rintro (rfl | ⟨h1, _⟩)
          · exact ⟨by simpa using hx, rfl⟩
          · rw [List.contains_cons] at h1
            simp [hxr] at h1
        · rintro ⟨_, h2⟩
          exact Or.inl (Option.some.inj h2).symm
      · rw [List.find?_cons_of_neg _ (by simp [hxr])]
        constructor
        · rintro (rfl | ⟨h1, h2⟩)
          · exact absurd rfl hxr
          · rw [List.contains_cons] at h1
            refine ⟨?_, h2⟩
            rcases Bool.or_eq_false_iff.mp h1 with ⟨_, h⟩
            exact h
        · rintro ⟨h1, h2⟩
          refine Or.inr ⟨?_, h2⟩
          rw [List.contains_cons, Bool.or_eq_false_iff]
          exact ⟨by simp [Ne.symm hxr], h1⟩

theorem pairwise_dedupGo :
    ∀ (seen : List String) (rs : List Record),
      (dedupGo seen rs).Pairwise (fun a b => a.uri ≠ b.uri) := by
  intro seen rs
  induction rs generalizing seen with
  | nil => simp [dedupGo]
  | cons x xs ih =>
    by_cases hx : seen.contains x.uri
    · rw [show dedupGo seen (x :: xs) = dedupGo seen xs from by
        simp only [dedupGo]; rw [if_pos hx]]
      exact ih seen
    · rw [show dedupGo seen (x :: xs) = x :: dedupGo (x.uri :: seen) xs from by
        simp only [dedupGo]; rw [if_neg hx]]
      refine List.Pairwise.cons ?_ (ih _)
      intro y hy hxy
      rcases (mem_dedupGo_iff (x.uri :: seen) xs).mp hy with ⟨h1, _⟩
      rw [List.contains_cons] at h1
      rcases Bool.or_eq_false_iff.mp h1 with ⟨h, _⟩
      simp [hxy] at h

theorem length_dedupGo :
    ∀ (seen : List String) (rs : List Record),
      (dedupGo seen rs).length ≤ rs.length := by
  intro seen rs
  induction rs generalizing seen with
  | nil => simp [dedupGo]
  | cons x xs ih =>
    by_cases hx : seen.contains x.uri
    · rw [show dedupGo seen (x :: xs) = dedupGo seen xs from by
        simp only [dedupGo]; rw [if_pos hx]]
      exact Nat.le_succ_of_le (ih seen)
    · rw [show dedupGo seen (x :: xs) = x :: dedupGo (x.uri :: seen) xs from by
        simp only [dedupGo]; rw [if_neg hx]]
      exact Nat.succ_le_succ (ih _)

theorem dedupGo_find? (u : String) :
    ∀ (seen : List String) (rs : List Record),
      (dedupGo seen rs).find? (fun x => x.uri == u) =
        if seen.contains u then none else rs.find? (fun x => x.uri == u) := by
  intro seen rs
  induction rs generalizing seen with
  | nil => simp [dedupGo]
  | cons x xs ih =>
    by_cases hx : seen.contains x.uri
    · rw [show dedupGo seen (x :: xs) = dedupGo seen xs from by
        simp only [dedupGo]; rw [if_pos hx], ih seen]
      by_cases hu : seen.contains u
      · rw [if_pos hu, if_pos hu]
      · have hne : x.uri ≠ u := by
          intro h
          rw [h] at hx
          exact hu hx
        rw [if_neg hu, if_neg hu,
          List.find?_cons_of_neg _ (by simp [hne])]
    · rw [show dedupGo seen (x :: xs) = x :: dedupGo (x.uri :: seen) xs from by
        simp only [dedupGo]; rw [if_neg hx]]
      by_cases hxu : x.uri = u
      · have hu : ¬ seen.contains u = true := by
          rw [← hxu]
          exact hx
        rw [List.find?_cons_of_pos _ (by simp [hxu]),
          List.find?_cons_of_pos _ (by simp [hxu]), if_neg hu]
      · rw [List.find?_cons_of_neg _ (by simp [hxu]), ih (x.uri :: seen)]
        have hc : (x.uri :: seen).contains u = seen.contains u := by
          rw [List.contains_cons]
          simp [Ne.symm hxu]
        rw [hc]
        by_cases hu : seen.contains u
        · rw [if_pos hu, if_pos hu]
        · rw [if_neg hu, if_neg hu,
            List.find?_cons_of_neg _ (by simp [hxu])]

theorem scan_ports_capabilities_none (ip : String) (portOpen : Nat → Bool)
    (fetch : Nat → Option HttpResponse) :
    ∀ (ports : List Nat) (r : Record),
      scan_ports ip portOpen fetch ports = some r → r.capabilities = none := by
  intro ports
  induction ports with
  | nil => intro r h; simp [scan_ports] at h
  | cons p ps ih =>
    intro r h
    rw [scan_ports] at h
    by_cases hp : portOpen p
    · rw [if_pos hp] at h
      split at h
      · split at h
        · cases h
          rfl
        · exact ih r h
      · exact ih r h
    · rw [if_neg hp] at h
      exact ih r h

theorem scan_probes_shape (ip : String) (portOpen : Nat → Bool)
    (fetch : Nat → Option HttpResponse) :
    ∀ (ports : List Nat) (pr : String × Nat),
      pr ∈ scan_probes ip portOpen fetch ports →
        pr.1 = ip ∧ pr.2 ∈ ports := by
  intro ports
  induction ports with
  | nil => intro pr h; simp [scan_probes] at h
  | cons p ps ih =>
    intro pr h
    rw [scan_probes] at h
    rcases List.mem_cons.mp h with rfl | h
    · exact ⟨rfl, List.mem_cons_self _ _⟩
    · by_cases hhit : scan_hit ip portOpen fetch p
      · rw [if_pos hhit] at h
        simp at h
      · rw [if_neg hhit] at h
        rcases ih pr h with ⟨h1, h2⟩
        exact ⟨h1, List.mem_cons_of_mem _ h2⟩

/-! Claim theorems. -/

set_option maxRecDepth 10000

/-- C1 counterexample: in the spec scenario (range 192.168.1.0/24, only host
.5 reachable on 631, banner titled Canon PIXMA TS3400), the produced record
has model "Canon PIXMA TS3400" — `_extract_model` returns `match.group(0)`,
which includes the PIXMA family keyword — not the claimed "Canon TS3400". -/
theorem c1_model_counterexample :
    (discover_network_printers [{ a := 192, b := 168, c := 1 }]
        c1_portOpen c1_fetch).map (fun r => r.model) = ["Canon PIXMA TS3400"] ∧
      ("Canon PIXMA TS3400" : String) ≠ "Canon TS3400" := by
  constructor
  · decide
  · decide

/-- C1 (amended): the scenario's network-scan contribution is exactly the
record with uri "ipp://192.168.1.5:631/ipp/print", name "Canon PIXMA TS3400",
model "Canon PIXMA TS3400" and source network_scan; the first matching
pattern yields "Canon " followed by the whole regex match, and a name no
pattern matches falls back to "Canon Printer". -/
theorem c1_network_scan_scenario :
    discover_network_printers [{ a := 192, b := 168, c := 1 }]
        c1_portOpen c1_fetch = [c1_expected] ∧
      c1_expected.uri = "ipp://192.168.1.5:631/ipp/print" ∧
      c1_expected.name = "Canon PIXMA TS3400" ∧
      c1_expected.model = "Canon PIXMA TS3400" ∧
      c1_expected.source = "network_scan" ∧
      extract_model "Canon PIXMA TS3400" = "Canon PIXMA TS3400" ∧
      extract_model "Selphy CP1300" = "Canon Printer" := by
  refine ⟨by decide, rfl, rfl, rfl, rfl, by decide, by decide⟩

/-- C2: deduplication keeps exactly the first record seen for each uri while
walking the concatenated producer lists in order, discarding every later
record with the same uri in full; the output length is bounded by the input
length and no two output records share a uri. -/
theorem c2_dedup_keeps_first :
    ∀ manual sys network mdns : List Record,
      find_canon_printers manual sys network mdns =
          dedupByUri (manual ++ sys ++ network ++ mdns) ∧
        (find_canon_printers manual sys network mdns).length ≤
          (manual ++ sys ++ network ++ mdns).length ∧
        (find_canon_printers manual sys network mdns).Pairwise
          (fun a b => a.uri ≠ b.uri) ∧
        ∀ r : Record,
          r ∈ find_canon_printers manual sys network mdns ↔
            (manual ++ sys ++ network ++ mdns).find?
              (fun x => x.uri == r.uri) = some r := by
  intro m s n d
  refine ⟨rfl, length_dedupGo [] _, pairwise_dedupGo [] _, fun r => ?_⟩
  have h := mem_dedupGo_iff (r := r) [] (m ++ s ++ n ++ d)
  simpa [find_canon_printers, dedupByUri] using h

/-- C3: for every uri, the record surviving deduplication is the first one
in the fixed concatenation order manual, system, network scan, mdns —
so the earliest-priority producer wins for any uri contributed by several
producers, whatever the order inside the network-scan list; in particular a
manual record and a network-scan rediscovery of the same uri with a
different name yield the manual record. -/
theorem c3_dedup_priority :
    (∀ (manual sys network mdns : List Record) (u : String),
        (find_canon_printers manual sys network mdns).find?
            (fun r => r.uri == u) =
          ((manual.find? (fun r => r.uri == u)).or
            ((sys.find? (fun r => r.uri == u)).or
              ((network.find? (fun r => r.uri == u)).or
                (mdns.find? (fun r => r.uri == u)))))) ∧
      find_canon_printers [c3_manual] [] [c3_net] [] = [c3_manual] := by
  constructor
  · intro m s n d u
    have h := dedupGo_find? u [] (m ++ s ++ n ++ d)
    rw [show find_canon_printers m s n d = dedupGo [] (m ++ s ++ n ++ d)
      from rfl, h]
    simp [List.find?_append]
  · decide

/-- C4 counterexample: when the route command completes with a nonzero exit
status (no default route), `_get_network_ranges` returns an empty list — it
does not fall back to the static default set, refuting "never returns an
empty list". -/
theorem c4_empty_ranges_counterexample :
    get_network_ranges (some (1, "")) = [] ∧ default_networks ≠ [] :=
  ⟨rfl, by decide⟩

/-- C4 (amended): resolution never raises; it falls back to the static
default set exactly when the route command itself raises or when the derived
gateway /24 string fails to parse; when the command runs but exits nonzero,
or exits zero with no gateway line, the resolver returns an empty list. -/
theorem c4_resolver_characterization :
    get_network_ranges none = default_networks ∧
      (∀ (rc : Nat) (out : String), rc ≠ 0 →
        get_network_ranges (some (rc, out)) = []) ∧
      (∀ out : String,
        (splitOnCh '\n' out.data).find?
            (fun l => containsSub "gateway:".data l) = none →
        get_network_ranges (some (0, out)) = []) ∧
      (∀ (out : String) (line : List Char),
        (splitOnCh '\n' out.data).find?
            (fun l => containsSub "gateway:".data l) = some line →
        parseNetwork24 (gateway_base line) = none →
        get_network_ranges (some (0, out)) = default_networks) ∧
      (∀ (out : String) (line : List Char) (nr : NetRange),
        (splitOnCh '\n' out.data).find?
            (fun l => containsSub "gateway:".data l) = some line →
        parseNetwork24 (gateway_base line) = some nr →
        get_network_ranges (some (0, out)) = [nr]) := by
  refine ⟨rfl, ?_, ?_, ?_, ?_⟩
  · intro rc out hrc
    simp [get_network_ranges, hrc]
  · intro out hfind
    simp [get_network_ranges, hfind]
  · intro out line hfind hparse
    simp [get_network_ranges, hfind, hparse]
  · intro out line nr hfind hparse
    simp [get_network_ranges, hfind, hparse]

/-- C4 witness: concrete route outcomes exercising each branch of the
resolver characterization. -/
theorem c4_resolver_witness :
    get_network_ranges (some (1, "route: not in table")) = [] ∧
      get_network_ranges (some (0, "foo")) = [] ∧
      get_network_ranges (some (0, "gateway: garbage")) = default_networks ∧
      get_network_ranges (some (0, "   gateway: 10.1.2.3\nfoo")) =
        [{ a := 10, b := 1, c := 2 }] := by
  refine ⟨c4_resolver_characterization.2.1 1 _ (by decide),
    c4_resolver_characterization.2.2.1 _ (by decide),
    c4_resolver_characterization.2.2.2.1 _ "gateway: garbage".data
      (by decide) (by decide),
    c4_resolver_characterization.2.2.2.2 _ "   gateway: 10.1.2.3".data _
      (by decide) (by decide)⟩

/-- C5: on a successful fetch (status 200), a candidate is produced exactly
when the lower-cased body contains a vendor keyword; the display name is the
HTML title capture when present and otherwise "Canon Printer at ip". -/
theorem c5_device_probe_gate :
    ∀ ip t : String,
      ((canon_keywords.any (fun kw => strIn kw (lowerStr t))) = true →
        get_ipp_printer_info ip (some { status := 200, text := t }) =
          some { name := (find_title t).getD ("Canon Printer at " ++ ip),
                 model :=
                   extract_model
                     ((find_title t).getD ("Canon Printer at " ++ ip)),
                 status := "Available" }) ∧
      ((canon_keywords.any (fun kw => strIn kw (lowerStr t))) = false →
        get_ipp_printer_info ip (some { status := 200, text := t }) = none) := by
  intro ip t
  constructor
  · intro h
    cases ht : find_title t with
    | none => simp [get_ipp_printer_info, h, ht]
    | some ttl => simp [get_ipp_printer_info, h, ht]
  · intro h
    simp [get_ipp_printer_info, h]

/-- C5 witness: a keyword-bearing body without a title synthesizes the
fallback name; a body with no keyword is discarded. -/
theorem c5_device_probe_gate_witness :
    get_ipp_printer_info "192.168.1.7"
        (some { status := 200, text := "acme canon device" }) =
      some { name := "Canon Printer at 192.168.1.7",
             model := "Canon Printer", status := "Available" } ∧
      get_ipp_printer_info "192.168.1.7"
        (some { status := 200, text := "hp laser" }) = none := by
  constructor
  · have h := (c5_device_probe_gate "192.168.1.7" "acme canon device").1
      (by decide)
    rw [h]
    decide
  · exact (c5_device_probe_gate "192.168.1.7" "hp laser").2 (by decide)

/-- C6 counterexample: the list returned by `find_canon_printers` returns
its input records untouched, so a surviving record does not carry the
default capability descriptor — `find_canon_printers` never calls
`get_printer_capabilities`. -/
theorem c6_capabilities_counterexample :
    find_canon_printers [] [c6_system_record] [] [] = [c6_system_record] ∧
      c6_system_record.capabilities = none ∧
      (find_canon_printers [] [c6_system_record] [] []).all
        (fun r => r.capabilities == some (get_printer_capabilities r.uri)) =
        false := by
  refine ⟨by decide, rfl, by decide⟩

/-- C6 (amended): `find_canon_printers` only selects among its input
records and attaches nothing; the producers modelled here build records
without a capability descriptor; the separate `get_printer_capabilities`
call returns the fixed default descriptor for every uri, independent of any
live device query. -/
theorem c6_no_capability_attach :
    (∀ u : String, get_printer_capabilities u = default_capabilities) ∧
      (∀ (manual sys network mdns : List Record) (r : Record),
        r ∈ find_canon_printers manual sys network mdns →
          r ∈ manual ++ sys ++ network ++ mdns) ∧
      (∀ (cache : List (String × CacheEntry)) (online : String → Bool)
          (r : Record),
        r ∈ get_manual_printers cache online → r.capabilities = none) ∧
      (∀ (ip : String) (portOpen : Nat → Bool)
          (fetch : Nat → Option HttpResponse) (r : Record),
        scan_host_for_ipp ip portOpen fetch = some r →
          r.capabilities = none) := by
  refine ⟨fun u => rfl, ?_, ?_, ?_⟩
  · intro m s n d r hr
    have h := (mem_dedupGo_iff (r := r) [] (m ++ s ++ n ++ d)).mp hr
    exact List.mem_of_find?_eq_some h.2
  · intro cache online r hr
    rcases List.mem_filterMap.mp hr with ⟨e, -, hfe⟩
    by_cases hm : e.2.manually_added
    · rw [if_pos hm] at hfe
      cases hfe
      rfl
    · rw [if_neg hm] at hfe
      simp at hfe
  · intro ip po f r h
    exact scan_ports_capabilities_none ip po f ipp_ports r h

/-- C6 witness: concrete records exercising each conjunct of the
no-annotation theorem. -/
theorem c6_no_capability_attach_witness :
    get_printer_capabilities "ipp://1.2.3.4:631/ipp/print" =
        default_capabilities ∧
      c6_system_record ∈ ([] ++ [c6_system_record] ++ [] ++ []) ∧
      ({ name := "Unknown Printer", uri := "u", status := "Offline",
         model := "Unknown", source := "manual_config", ip := some "",
         port := some 631 } : Record).capabilities = none ∧
      c1_expected.capabilities = none := by
  refine ⟨c6_no_capability_attach.1 _,
    c6_no_capability_attach.2.1 [] [c6_system_record] [] [] _ (by decide),
    c6_no_capability_attach.2.2.1 [("u", { manually_added := true })]
      (fun _ => false) _ (by decide),
    c6_no_capability_attach.2.2.2 "192.168.1.5"
      (c8_portOpen "192.168.1.5") (c8_fetch "192.168.1.5") c1_expected
      (by decide)⟩

/-- C7: every manually-added cache entry yields a record in the
manual-config contribution for both connectivity outcomes — status
Available when the check succeeds and Offline when it fails — and the
contribution has exactly one record per flagged entry, so no record is
dropped for being offline. -/
theorem c7_manual_records_never_dropped :
    (∀ (cache : List (String × CacheEntry)) (online : String → Bool)
        (uri : String) (e : CacheEntry),
      (uri, e) ∈ cache → e.manually_added = true →
        ({ name := e.name.getD "Unknown Printer", uri := uri,
           status := if online uri then "Available" else "Offline",
           model := e.model.getD "Unknown", source := "manual_config",
           ip := some (e.ip.getD ""), port := some (e.port.getD 631) } :
          Record) ∈ get_manual_printers cache online) ∧
      (∀ (cache : List (String × CacheEntry)) (online : String → Bool),
        (get_manual_printers cache online).length =
          (cache.filter (fun pe => pe.2.manually_added)).length) := by
  constructor
  · intro cache online uri e hmem hflag
    refine List.mem_filterMap.mpr ⟨(uri, e), hmem, ?_⟩
    simp [hflag]
  · intro cache online
    induction cache with
    | nil => rfl
    | cons x xs ih =>
      by_cases hm : x.2.manually_added
      · rw [show get_manual_printers (x :: xs) online =
            ({ name := x.2.name.getD "Unknown Printer", uri := x.1,
               status := if online x.1 then "Available" else "Offline",
               model := x.2.model.getD "Unknown", source := "manual_config",
               ip := some (x.2.ip.getD ""), port := some (x.2.port.getD 631) } :
              Record) :: get_manual_printers xs online from by
            simp [get_manual_printers, List.filterMap_cons, hm]]
        simp [List.filter_cons, hm, ih]
      · rw [show get_manual_printers (x :: xs) online =
            get_manual_printers xs online from by
            simp [get_manual_printers, List.filterMap_cons, hm]]
        simp [List.filter_cons, hm, ih]

/-- C7 witness: an unreachable manually-added printer is still included,
with status Offline. -/
theorem c7_manual_records_never_dropped_witness :
    ({ name := "Office Canon", uri := "ipp://10.0.0.9:631/ipp/print",
       status := "Offline", model := "Canon MB2720",
       source := "manual_config", ip := some "10.0.0.9",
       port := some 631 } : Record) ∈
      get_manual_printers
        [("ipp://10.0.0.9:631/ipp/print",
          { name := some "Office Canon", model := some "Canon MB2720",
            manually_added := true, ip := some "10.0.0.9",
            port := some 631 })]
        (fun _ => false) := by
  have h := c7_manual_records_never_dropped.1
    [("ipp://10.0.0.9:631/ipp/print",
      { name := some "Office Canon", model := some "Canon MB2720",
        manually_added := true, ip := some "10.0.0.9", port := some 631 })]
    (fun _ => false) "ipp://10.0.0.9:631/ipp/print"
    { name := some "Office Canon", model := some "Canon MB2720",
      manually_added := true, ip := some "10.0.0.9", port := some 631 }
    (by simp) rfl
  simpa using h

/-- C8 counterexample: with every port of host .5 open and serving the Canon
banner, the pair (.5, 9100) belongs to the address × port cross-product but
is never probed — the scan stops at the first matching port of a host, so
the full cross-product is not submitted for probing. -/
theorem c8_not_cross_product_counterexample :
    ("192.168.1.5", 9100) ∈ full_cross [{ a := 192, b := 168, c := 1 }] ∧
      ("192.168.1.5", 9100) ∉
        probed_pairs [{ a := 192, b := 168, c := 1 }] c8_portOpen c8_fetch := by
  constructor
  · decide
  · decide

/-- C8 (amended): one probe task per address is submitted for every address
of every resolved range (each host's first configured port is always
probed); every probed pair stays inside the address × port space; and every
host's successful scan result reaches the sweep's result set — there is no
cross-host early termination, only the per-host stop at the first matching
port. -/
theorem c8_sweep_full_submission :
    (∀ (ranges : List NetRange) (portOpen : String → Nat → Bool)
        (fetch : String → Nat → Option HttpResponse) (ip : String),
      ip ∈ submitted_ips ranges →
        (ip, 631) ∈ probed_pairs ranges portOpen fetch) ∧
      (∀ (ranges : List NetRange) (portOpen : String → Nat → Bool)
          (fetch : String → Nat → Option HttpResponse) (pr : String × Nat),
        pr ∈ probed_pairs ranges portOpen fetch →
          pr.1 ∈ submitted_ips ranges ∧ pr.2 ∈ ipp_ports) ∧
      (∀ (ranges : List NetRange) (portOpen : String → Nat → Bool)
          (fetch : String → Nat → Option HttpResponse) (ip : String)
          (r : Record),
        ip ∈ submitted_ips ranges →
        scan_host_for_ipp ip (portOpen ip) (fetch ip) = some r →
          r ∈ discover_network_printers ranges portOpen fetch) := by
  refine ⟨?_, ?_, ?_⟩
  · intro ranges po f ip hip
    refine List.mem_flatMap.mpr ⟨ip, hip, ?_⟩
    rw [show ipp_ports = 631 :: [9100, 8080, 80] from rfl, scan_probes]
    exact List.mem_cons_self _ _
  · intro ranges po f pr hpr
    rcases List.mem_flatMap.mp hpr with ⟨ip, hip, hp⟩
    rcases scan_probes_shape ip (po ip) (f ip) ipp_ports pr hp with ⟨h1, h2⟩
    exact ⟨by rw [h1]; exact hip, h2⟩
  · intro ranges po f ip r hip h
    exact List.mem_filterMap.mpr ⟨ip, hip, h⟩

/-- C8 witness: in the concrete scenario, host .5's first port is probed and
its scan result reaches the sweep output. -/
theorem c8_sweep_full_submission_witness :
    ("192.168.1.5", 631) ∈
        probed_pairs [{ a := 192, b := 168, c := 1 }] c1_portOpen c1_fetch ∧
      c1_expected ∈
        discover_network_printers [{ a := 192, b := 168, c := 1 }]
          c1_portOpen c1_fetch := by
  constructor
  · exact c8_sweep_full_submission.1 _ c1_portOpen c1_fetch _ (by decide)
  · exact c8_sweep_full_submission.2.2 _ c1_portOpen c1_fetch "192.168.1.5" _
      (by decide) (by decide)

/-- C10: vendor classification is substring containment of some fixed
keyword in the lower-cased name — so "Jumbo", which contains "mb",
classifies as a vendor match — and the copy in `platform_utils` agrees with
the discovery module's classifier on every name. -/
theorem c10_classifier_is_substring_containment :
    (∀ name : String, is_canon_printer name = true ↔
        ∃ kw ∈ canon_keywords, ∃ l r : List Char,
          (lowerStr name).data = l ++ kw.data ++ r) ∧
      is_canon_printer "Jumbo" = true ∧
      (∀ name : String, platform_is_canon_printer name = is_canon_printer name) := by
  refine ⟨fun name => ?_, by decide, fun name => rfl⟩
  rw [is_canon_printer, List.any_eq_true]
  constructor
  · rintro ⟨kw, hkw, h⟩
    rcases (containsSub_iff_exists kw.data (lowerStr name).data).mp h with
      ⟨l, r, hlr⟩
    exact ⟨kw, hkw, l, r, hlr⟩
  · rintro ⟨kw, hkw, l, r, hlr⟩
    exact ⟨kw, hkw, (containsSub_iff_exists _ _).mpr ⟨l, r, hlr⟩⟩

end CanonDiscovery
